import Mathlib

/-!
Shallow embedding of the avalanche.js transaction codec and signing core
(src/apis/avm/tx.ts, src/apis/avm/ops.ts, src/apis/platform/tx.ts).

Buffers are modelled as `List Nat` of byte values; class instances become
immutable records, and methods that mutate an instance are embedded as
functions returning the new state explicitly.  Decoders follow the
source's `fromBuffer(bytes, offset) -> new offset` discipline in the
equivalent consume-a-prefix style `Bytes -> Except DecErr (A × Bytes)`.

Code of the repository that is not under src/ (bintools, types.ts,
outputs.ts, inputs.ts, credentials.ts, keychain.ts) is modelled from the
spec; every such definition is flagged in its doc comment.
-/

namespace Ava

/-- A byte buffer, as a list of byte values. -/
abbrev Bytes := List Nat

/-- Modelled from the spec: big-endian u16 write (`writeUInt16BE`, bintools
is not under src/). -/
def u16be (n : Nat) : Bytes := [n / 256 % 256, n % 256]

/-- Modelled from the spec: big-endian u32 write (`writeUInt32BE`). -/
def u32be (n : Nat) : Bytes :=
  [n / 16777216 % 256, n / 65536 % 256, n / 256 % 256, n % 256]

/-- Big-endian value of a byte buffer. -/
def beVal (b : Bytes) : Nat := b.foldl (fun a x => a * 256 + x) 0

/-- Decode failure, per the spec's tagged error kinds. -/
inductive DecErr where
  | truncated
  | unknownTxType (id : Nat)
  | unknownOpId (id : Nat)
deriving DecidableEq, Repr

instance {e a : Type} [DecidableEq e] [DecidableEq a] : DecidableEq (Except e a)
  | .ok x, .ok y =>
    if h : x = y then isTrue (congrArg Except.ok h)
    else isFalse fun hx => h (Except.ok.inj hx)
  | .error x, .error y =>
    if h : x = y then isTrue (congrArg Except.error h)
    else isFalse fun hx => h (Except.error.inj hx)
  | .ok _, .error _ => isFalse fun hx => Except.noConfusion hx
  | .error _, .ok _ => isFalse fun hx => Except.noConfusion hx

/-- Modelled from the spec: read `n` raw bytes (`bintools.copyFrom`),
failing with `Truncated` when fewer are available. -/
def readBytes (n : Nat) (b : Bytes) : Except DecErr (Bytes × Bytes) :=
  if n ≤ b.length then .ok (b.take n, b.drop n) else .error .truncated

/-- Modelled from the spec: big-endian u32 read (`readUInt32BE`). -/
def readU32 (b : Bytes) : Except DecErr (Nat × Bytes) :=
  match readBytes 4 b with
  | .ok (w, r) => .ok (beVal w, r)
  | .error e => .error e

/-- Modelled from the spec: big-endian u16 read (`readUInt16BE`). -/
def readU16 (b : Bytes) : Except DecErr (Nat × Bytes) :=
  match readBytes 2 b with
  | .ok (w, r) => .ok (beVal w, r)
  | .error e => .error e

/-- Modelled from the spec: u8 read (`readUInt8`). -/
def readU8 (b : Bytes) : Except DecErr (Nat × Bytes) :=
  match b with
  | x :: r => .ok (x, r)
  | [] => .error .truncated

/-- Run an element decoder `n` times, as the source's count-driven
`for` loops over `fromBuffer` calls do. -/
def readList {A : Type} (dec : Bytes → Except DecErr (A × Bytes)) :
    Nat → Bytes → Except DecErr (List A × Bytes)
  | 0, b => .ok ([], b)
  | n + 1, b =>
    match dec b with
    | .ok (x, b₁) =>
      match readList dec n b₁ with
      | .ok (xs, b₂) => .ok (x :: xs, b₂)
      | .error e => .error e
    | .error e => .error e

/-- Concatenation of a list of buffers (`Buffer.concat`). -/
def concatAll (l : List Bytes) : Bytes := l.foldr (· ++ ·) []

/-- Boolean lexicographic byte-order (`Buffer.compare(a, b) <= 0`):
a proper prefix sorts first, otherwise the first differing byte decides. -/
def bleb : Bytes → Bytes → Bool
  | [], _ => true
  | _ :: _, [] => false
  | a :: as, b :: bs => a < b || (a == b && bleb as bs)

/-- The propositional form of the byte order. -/
def leB (a b : Bytes) : Prop := bleb a b = true

instance : DecidableRel leB := fun a b => inferInstanceAs (Decidable (_ = true))

/-! ### Registry constants

`AVMConstants` / `PlatformConstants` live in types.ts, which is not under
src/.  The five asset-chain transaction tags are fixed by the spec
(`BASE_TX=0 .. EXPORT_TX=4`); the numeric values of the operation and
credential tags are not fixed by the spec, so arbitrary distinct values are
used (no settled claim depends on them). -/

/-- Modelled from the spec: `AVMConstants.BASETX`. -/
def BASETX : Nat := 0
/-- Modelled from the spec: `AVMConstants.CREATEASSETTX`. -/
def CREATEASSETTX : Nat := 1
/-- Modelled from the spec: `AVMConstants.OPERATIONTX`. -/
def OPERATIONTX : Nat := 2
/-- Modelled from the spec: `AVMConstants.IMPORTTX`. -/
def IMPORTTX : Nat := 3
/-- Modelled from the spec: `AVMConstants.EXPORTTX`. -/
def EXPORTTX : Nat := 4
/-- Modelled from the spec: `AVMConstants.NFTXFEROP` (value not fixed by src). -/
def NFTXFEROP : Nat := 13
/-- Modelled from the spec: `AVMConstants.SECPCREDENTIAL` (value not fixed by src). -/
def SECPCREDENTIAL : Nat := 6
/-- Modelled from the spec: `AVMConstants.NFTCREDENTIAL` (value not fixed by src). -/
def NFTCREDENTIAL : Nat := 14

/-! ### Elements -/

/-- Modelled from the spec: `SigIdx` (types.ts is not under src/): a u32
address index that is serialized, plus a local-only source address hint
that is never written to the wire. -/
structure SigIdx where
  addressIdx : Nat
  source : Bytes
deriving DecidableEq, Repr

/-- Serialized form of a `SigIdx`: only the u32 address index. -/
def SigIdx.toBuffer (s : SigIdx) : Bytes := u32be s.addressIdx

/-- Modelled from the spec: `UTXOID` (types.ts): 32-byte txid plus u32
output index. -/
structure UTXOID where
  txid : Bytes
  outputIdx : Nat
deriving DecidableEq, Repr

def UTXOID.toBuffer (u : UTXOID) : Bytes := u.txid ++ u32be u.outputIdx

def UTXOID.fromBuffer (b : Bytes) : Except DecErr (UTXOID × Bytes) :=
  match readBytes 32 b with
  | .ok (txid, b₁) =>
    match readU32 b₁ with
    | .ok (idx, b₂) => .ok (⟨txid, idx⟩, b₂)
    | .error e => .error e
  | .error e => .error e

/-- Modelled from the spec: `TransferableOutput` (outputs.ts is not under
src/): a 32-byte asset id and a u32-tagged output.  The spec does not
repeat the output registry's payload layouts, so the tag-specific payload
is modelled as an opaque u32-length-prefixed byte string and the registry
lookup accepts any tag. -/
structure TransferableOutput where
  assetID : Bytes
  outputTypeID : Nat
  payload : Bytes
deriving DecidableEq, Repr

def TransferableOutput.toBuffer (o : TransferableOutput) : Bytes :=
  o.assetID ++ u32be o.outputTypeID ++ u32be o.payload.length ++ o.payload

def TransferableOutput.fromBuffer (b : Bytes) :
    Except DecErr (TransferableOutput × Bytes) :=
  match readBytes 32 b with
  | .ok (aid, b₁) =>
    match readU32 b₁ with
    | .ok (tid, b₂) =>
      match readU32 b₂ with
      | .ok (n, b₃) =>
        match readBytes n b₃ with
        | .ok (pl, b₄) => .ok (⟨aid, tid, pl⟩, b₄)
        | .error e => .error e
      | .error e => .error e
    | .error e => .error e
  | .error e => .error e

/-- Modelled from the spec: `TransferableInput` (inputs.ts is not under
src/): a UTXO id (32-byte txid, u32 index), a 32-byte asset id, and a
u32-tagged input.  The input payload is modelled as its essential spec
content, the signer-index list (u32 count, then each u32 address index);
the registry lookup accepts any tag.  Decoded `SigIdx.source` hints are
empty (the source is not serialized). -/
structure TransferableInput where
  txid : Bytes
  outputIdx : Nat
  assetID : Bytes
  inputTypeID : Nat
  sigIdxs : List SigIdx
deriving DecidableEq, Repr

def TransferableInput.toBuffer (i : TransferableInput) : Bytes :=
  i.txid ++ u32be i.outputIdx ++ i.assetID ++ u32be i.inputTypeID ++
    u32be i.sigIdxs.length ++ concatAll (i.sigIdxs.map SigIdx.toBuffer)

/-- Modelled from the spec: decode of one serialized `SigIdx` (source
hint comes back empty). -/
def SigIdx.fromBuffer (b : Bytes) : Except DecErr (SigIdx × Bytes) :=
  match readU32 b with
  | .ok (n, r) => .ok (⟨n, []⟩, r)
  | .error e => .error e

def TransferableInput.fromBuffer (b : Bytes) :
    Except DecErr (TransferableInput × Bytes) :=
  match readBytes 32 b with
  | .ok (txid, b₁) =>
    match readU32 b₁ with
    | .ok (oidx, b₂) =>
      match readBytes 32 b₂ with
      | .ok (aid, b₃) =>
        match readU32 b₃ with
        | .ok (tid, b₄) =>
          match readU32 b₄ with
          | .ok (n, b₅) =>
            match readList SigIdx.fromBuffer n b₅ with
            | .ok (idxs, b₆) => .ok (⟨txid, oidx, aid, tid, idxs⟩, b₆)
            | .error e => .error e
          | .error e => .error e
        | .error e => .error e
      | .error e => .error e
    | .error e => .error e
  | .error e => .error e

/-- Modelled from the spec: the credential id an input demands
(`getInput().getCredentialID()`, inputs.ts). -/
def TransferableInput.getCredentialID (_ : TransferableInput) : Nat :=
  SECPCREDENTIAL

/-! ### Canonical byte order and sorting (BaseTx.toBuffer comparators)

The comparators live in outputs.ts / inputs.ts, which are not under src/.
Modelled from the spec: `canonical_bytes() = u32-be(type_id) || encode()`
and the canonical comparator is lexicographic comparison of the canonical
bytes.  The in-src exemplar `Operation.comparator` (ops.ts) has exactly
this shape.  JS `Array.prototype.sort` is modelled as insertion sort; any
sorted permutation gives the same encoded bytes. -/

def cbOut (o : TransferableOutput) : Bytes := u32be o.outputTypeID ++ o.toBuffer

def cbIn (i : TransferableInput) : Bytes := u32be i.inputTypeID ++ i.toBuffer

def leOut (a b : TransferableOutput) : Prop := leB (cbOut a) (cbOut b)

def leIn (a b : TransferableInput) : Prop := leB (cbIn a) (cbIn b)

instance : DecidableRel leOut := fun a b => inferInstanceAs (Decidable (leB _ _))
instance : DecidableRel leIn := fun a b => inferInstanceAs (Decidable (leB _ _))

def sortOuts (l : List TransferableOutput) : List TransferableOutput :=
  l.insertionSort leOut

def sortIns (l : List TransferableInput) : List TransferableInput :=
  l.insertionSort leIn

/-! ### BaseTx (src/apis/avm/tx.ts lines 45-200) -/

/-- The state of a `BaseTx` instance: network id (u32), 32-byte
blockchain id, and the outputs and inputs arrays.  The redundant
`numouts` / `numins` buffers are always rewritten from the array lengths
before use and are not part of the state. -/
structure BaseTx where
  networkid : Nat
  blockchainid : Bytes
  outs : List TransferableOutput
  ins : List TransferableInput
deriving DecidableEq, Repr

/-- `BaseTx.toBuffer` first sorts `this.outs` and `this.ins` in place;
this is the instance state after the call. -/
def BaseTx.sortState (s : BaseTx) : BaseTx :=
  { s with outs := sortOuts s.outs, ins := sortIns s.ins }

/-- The element order of the outputs section emitted by `BaseTx.toBuffer`. -/
def BaseTx.encodedOuts (s : BaseTx) : List TransferableOutput := sortOuts s.outs

/-- The element order of the inputs section emitted by `BaseTx.toBuffer`. -/
def BaseTx.encodedIns (s : BaseTx) : List TransferableInput := sortIns s.ins

/-- The bytes returned by `BaseTx.toBuffer`: u32 network id, 32-byte
blockchain id, u32 count and the sorted outputs, u32 count and the sorted
inputs. -/
def BaseTx.bodyBytes (s : BaseTx) : Bytes :=
  u32be s.networkid ++ s.blockchainid ++
    u32be s.encodedOuts.length ++
    concatAll (s.encodedOuts.map TransferableOutput.toBuffer) ++
    u32be s.encodedIns.length ++
    concatAll (s.encodedIns.map TransferableInput.toBuffer)

/-- `BaseTx.toBuffer` as a state transformer: the sorted instance state
together with the returned buffer. -/
def BaseTx.toBuffer (s : BaseTx) : BaseTx × Bytes := (s.sortState, s.bodyBytes)

/-- `BaseTx.fromBuffer`: reads the header and replaces all four fields
(`this.outs` and `this.ins` are reset to fresh arrays before the loops). -/
def BaseTx.fromBuffer (b : Bytes) : Except DecErr (BaseTx × Bytes) :=
  match readU32 b with
  | .ok (nid, b₁) =>
    match readBytes 32 b₁ with
    | .ok (bcid, b₂) =>
      match readU32 b₂ with
      | .ok (ocnt, b₃) =>
        match readList TransferableOutput.fromBuffer ocnt b₃ with
        | .ok (os, b₄) =>
          match readU32 b₄ with
          | .ok (icnt, b₅) =>
            match readList TransferableInput.fromBuffer icnt b₅ with
            | .ok (is, b₆) => .ok (⟨nid, bcid, os, is⟩, b₆)
            | .error e => .error e
          | .error e => .error e
        | .error e => .error e
      | .error e => .error e
    | .error e => .error e
  | .error e => .error e

/-- The `BaseTx` constructor: writes the network id, stores the
blockchain id, and, when both `outs` and `ins` are provided, stores them
sorted by the canonical comparators.  When either is absent the source
leaves the arrays undefined; that unpopulated state (only ever filled by
`fromBuffer`) is modelled by empty arrays. -/
def BaseTx.mkTx (networkid : Nat) (blockchainid : Bytes)
    (outs : Option (List TransferableOutput))
    (ins : Option (List TransferableInput)) : BaseTx :=
  match outs, ins with
  | some os, some is => ⟨networkid, blockchainid, sortOuts os, sortIns is⟩
  | _, _ => ⟨networkid, blockchainid, [], []⟩

end Ava

namespace Ava

/-! ### JS strings and UTF-8 (CreateAssetTx name/symbol handling)

A JS string is modelled as its list of Unicode code points.  The source
sizes the name/symbol buffers with the JS `String.length` (UTF-16 code
units) while writing UTF-8 bytes into them; the write primitive
(feross/buffer `utf8Write`, not under src/) is modelled from the spec and
the documented Buffer contract: it writes whole characters while they fit
in the allocated capacity and stops at the first that does not, the rest
of the zero-filled allocation remaining zero. -/

/-- JS `String.length` of a code-point list: UTF-16 code units. -/
def jsLength (cps : List Nat) : Nat :=
  (cps.map (fun c => if c < 0x10000 then 1 else 2)).sum

/-- The UTF-8 encoding of one code point. -/
def utf8Bytes (c : Nat) : Bytes :=
  if c < 0x80 then [c]
  else if c < 0x800 then [0xC0 + c / 64, 0x80 + c % 64]
  else if c < 0x10000 then [0xE0 + c / 4096, 0x80 + c / 64 % 64, 0x80 + c % 64]
  else [0xF0 + c / 262144, 0x80 + c / 4096 % 64, 0x80 + c / 64 % 64, 0x80 + c % 64]

/-- Write UTF-8 bytes of successive characters while they fit in the
remaining capacity; stop at the first character that does not fit. -/
def truncWriteAux : List Nat → Nat → Bytes
  | [], _ => []
  | c :: cs, rem =>
    let e := utf8Bytes c
    if e.length ≤ rem then e ++ truncWriteAux cs (rem - e.length) else []

/-- `Buffer.alloc(cap)` followed by `buf.write(s, 0, cap, "utf8")`: the
written bytes, zero-padded to the allocated capacity. -/
def writeUtf8Alloc (cps : List Nat) (cap : Nat) : Bytes :=
  let w := truncWriteAux cps cap
  w ++ List.replicate (cap - w.length) 0

/-- One step of UTF-8 decoding (`buf.toString("utf8")`): the decoded code
point and the remaining bytes; malformed sequences yield U+FFFD. -/
def utf8Step (b : Nat) (rest : Bytes) : Nat × Bytes :=
  if b < 0x80 then (b, rest)
  else if b < 0xC0 then (0xFFFD, rest)
  else if b < 0xE0 then
    match rest with
    | c :: r =>
      if 0x80 ≤ c ∧ c < 0xC0 then ((b - 0xC0) * 64 + (c - 0x80), r)
      else (0xFFFD, rest)
    | [] => (0xFFFD, [])
  else if b < 0xF0 then
    match rest with
    | c :: d :: r =>
      if (0x80 ≤ c ∧ c < 0xC0) ∧ (0x80 ≤ d ∧ d < 0xC0) then
        ((b - 0xE0) * 4096 + (c - 0x80) * 64 + (d - 0x80), r)
      else (0xFFFD, rest)
    | _ => (0xFFFD, rest)
  else
    match rest with
    | c :: d :: e :: r =>
      if (0x80 ≤ c ∧ c < 0xC0) ∧ (0x80 ≤ d ∧ d < 0xC0) ∧ (0x80 ≤ e ∧ e < 0xC0) then
        ((b - 0xF0) * 262144 + (c - 0x80) * 4096 + (d - 0x80) * 64 + (e - 0x80), r)
      else (0xFFFD, rest)
    | _ => (0xFFFD, rest)

theorem utf8Step_len (b : Nat) (rest : Bytes) :
    (utf8Step b rest).2.length ≤ rest.length := by
  rcases rest with _ | ⟨c, _ | ⟨d, _ | ⟨e, r⟩⟩⟩ <;>
    simp only [utf8Step] <;> repeat' split
  all_goals dsimp only
  all_goals try simp only [List.length_cons, List.length_nil]
  all_goals omega

/-- Fuel-driven iteration of `utf8Step`; the fuel only needs to exceed
the buffer length (each step consumes at least one byte). -/
def utf8DecodeAux : Nat → Bytes → List Nat
  | 0, _ => []
  | _, [] => []
  | fuel + 1, b :: rest => (utf8Step b rest).1 :: utf8DecodeAux fuel (utf8Step b rest).2

/-- UTF-8 decoding of a byte buffer (`buf.toString("utf8")`). -/
def utf8Decode (b : Bytes) : List Nat := utf8DecodeAux b.length b

/-! ### CreateAssetTx (src/apis/avm/tx.ts lines 202-337) -/

/-- `CreateAssetTx`: the base header plus name, symbol, denomination and
initial state.  `InitialStates` (types.ts, not under src/) is modelled
from the spec as an opaque payload with the spec's u32-count convention:
a u32 length prefix followed by its bytes. -/
structure CreateAssetTx extends BaseTx where
  name : List Nat
  symbol : List Nat
  denomination : Nat
  initialstate : Bytes
deriving DecidableEq, Repr

/-- The bytes returned by `CreateAssetTx.toBuffer`: the base body, then
a u16 size and buffer for the name, the same for the symbol, the
denomination byte, and the initial-state bytes.  Both the u16 size and
the buffer allocation use the JS string length (UTF-16 units), not the
UTF-8 byte length. -/
def CreateAssetTx.bodyBytes (s : CreateAssetTx) : Bytes :=
  s.toBaseTx.bodyBytes ++
    u16be (jsLength s.name) ++ writeUtf8Alloc s.name (jsLength s.name) ++
    u16be (jsLength s.symbol) ++ writeUtf8Alloc s.symbol (jsLength s.symbol) ++
    [s.denomination % 256] ++
    u32be s.initialstate.length ++ s.initialstate

/-- `CreateAssetTx.toBuffer` as a state transformer (the base part of the
instance is sorted in place by `super.toBuffer()`). -/
def CreateAssetTx.toBuffer (s : CreateAssetTx) : CreateAssetTx × Bytes :=
  ({ s with toBaseTx := s.toBaseTx.sortState }, s.bodyBytes)

def CreateAssetTx.fromBuffer (b : Bytes) : Except DecErr (CreateAssetTx × Bytes) :=
  match BaseTx.fromBuffer b with
  | .ok (base, b₁) =>
    match readU16 b₁ with
    | .ok (nsz, b₂) =>
      match readBytes nsz b₂ with
      | .ok (nb, b₃) =>
        match readU16 b₃ with
        | .ok (ssz, b₄) =>
          match readBytes ssz b₄ with
          | .ok (sb, b₅) =>
            match readU8 b₅ with
            | .ok (d, b₆) =>
              match readU32 b₆ with
              | .ok (isn, b₇) =>
                match readBytes isn b₇ with
                | .ok (isb, b₈) =>
                  .ok (⟨base, utf8Decode nb, utf8Decode sb, d, isb⟩, b₈)
                | .error e => .error e
              | .error e => .error e
            | .error e => .error e
          | .error e => .error e
        | .error e => .error e
      | .error e => .error e
    | .error e => .error e
  | .error e => .error e

/-- The `CreateAssetTx` constructor: the base constructor runs first;
the payload fields are assigned only when name and symbol are strings,
the denomination is a number within `0 ≤ d ≤ 32` and an initial state is
given — otherwise they silently keep their defaults (empty name and
symbol, denomination byte 0, empty initial state) and no error is
raised. -/
def CreateAssetTx.mkTx (networkid : Nat) (blockchainid : Bytes)
    (outs : Option (List TransferableOutput))
    (ins : Option (List TransferableInput))
    (name symbol : Option (List Nat)) (denomination : Option Int)
    (initialstate : Option Bytes) : CreateAssetTx :=
  let base := BaseTx.mkTx networkid blockchainid outs ins
  match name, symbol, denomination, initialstate with
  | some n, some sy, some d, some i =>
    if 0 ≤ d ∧ d ≤ 32 then ⟨base, n, sy, d.toNat, i⟩
    else ⟨base, [], [], 0, []⟩
  | _, _, _, _ => ⟨base, [], [], 0, []⟩

end Ava

namespace Ava

/-! ### Operations (src/apis/avm/ops.ts) -/

/-- `NFTTransferOperation` (ops.ts): the `Operation` base state (a signer
index list) plus an `NFTTransferOutput`.  `NFTTransferOutput` lives in
outputs.ts, which is not under src/; modelled from the spec as an opaque
u32-length-prefixed payload. -/
structure NFTTransferOperation where
  sigIdxs : List SigIdx
  output : Bytes
deriving DecidableEq, Repr

/-- `Operation.getCredentialID` (ops.ts): always `NFTCREDENTIAL`. -/
def NFTTransferOperation.getCredentialID (_ : NFTTransferOperation) : Nat :=
  NFTCREDENTIAL

/-- `Operation.toBuffer` then the output: u32 signer count, the u32
signer indices, then the output bytes. -/
def NFTTransferOperation.toBuffer (o : NFTTransferOperation) : Bytes :=
  u32be o.sigIdxs.length ++ concatAll (o.sigIdxs.map SigIdx.toBuffer) ++
    u32be o.output.length ++ o.output

def NFTTransferOperation.fromBuffer (b : Bytes) :
    Except DecErr (NFTTransferOperation × Bytes) :=
  match readU32 b with
  | .ok (n, b₁) =>
    match readList SigIdx.fromBuffer n b₁ with
    | .ok (idxs, b₂) =>
      match readU32 b₂ with
      | .ok (m, b₃) =>
        match readBytes m b₃ with
        | .ok (ob, b₄) => .ok (⟨idxs, ob⟩, b₄)
        | .error e => .error e
      | .error e => .error e
    | .error e => .error e
  | .error e => .error e

/-- `TransferableOperation` (ops.ts): a 32-byte asset id, a list of UTXO
ids in authored order, and the operation. -/
structure TransferableOperation where
  assetID : Bytes
  utxoIDs : List UTXOID
  operation : NFTTransferOperation
deriving DecidableEq, Repr

def TransferableOperation.toBuffer (t : TransferableOperation) : Bytes :=
  t.assetID ++ u32be t.utxoIDs.length ++
    concatAll (t.utxoIDs.map UTXOID.toBuffer) ++
    u32be NFTXFEROP ++ t.operation.toBuffer

/-- `TransferableOperation.fromBuffer`: reads the asset id, the UTXO id
list, then the u32 operation id and dispatches through
`SelectOperationClass`, which recognises only `NFTXFEROP` and throws for
any other id. -/
def TransferableOperation.fromBuffer (b : Bytes) :
    Except DecErr (TransferableOperation × Bytes) :=
  match readBytes 32 b with
  | .ok (aid, b₁) =>
    match readU32 b₁ with
    | .ok (n, b₂) =>
      match readList UTXOID.fromBuffer n b₂ with
      | .ok (us, b₃) =>
        match readU32 b₃ with
        | .ok (opid, b₄) =>
          if opid = NFTXFEROP then
            match NFTTransferOperation.fromBuffer b₄ with
            | .ok (op, b₅) => .ok (⟨aid, us, op⟩, b₅)
            | .error e => .error e
          else .error (.unknownOpId opid)
        | .error e => .error e
      | .error e => .error e
    | .error e => .error e
  | .error e => .error e

/-! ### OperationTx, ImportTx, ExportTx (src/apis/avm/tx.ts lines 339-629) -/

/-- `OperationTx`: the base header plus the operations array. -/
structure OperationTx extends BaseTx where
  ops : List TransferableOperation
deriving DecidableEq, Repr

/-- The bytes returned by `OperationTx.toBuffer`: base body, u32 count,
then the operations in authored order (they are not sorted). -/
def OperationTx.bodyBytes (s : OperationTx) : Bytes :=
  s.toBaseTx.bodyBytes ++ u32be s.ops.length ++
    concatAll (s.ops.map TransferableOperation.toBuffer)

/-- `OperationTx.toBuffer` as a state transformer (`super.toBuffer()`
sorts the base arrays in place; `ops` is untouched). -/
def OperationTx.toBuffer (s : OperationTx) : OperationTx × Bytes :=
  ({ s with toBaseTx := s.toBaseTx.sortState }, s.bodyBytes)

/-- `OperationTx.fromBuffer` reparses the base header (which resets
`outs` and `ins`) but pushes the parsed operations onto the instance's
existing `ops` array without resetting it. -/
def OperationTx.fromBuffer (s : OperationTx) (b : Bytes) :
    Except DecErr (OperationTx × Bytes) :=
  match BaseTx.fromBuffer b with
  | .ok (base, b₁) =>
    match readU32 b₁ with
    | .ok (n, b₂) =>
      match readList TransferableOperation.fromBuffer n b₂ with
      | .ok (ops, b₃) => .ok (⟨base, s.ops ++ ops⟩, b₃)
      | .error e => .error e
    | .error e => .error e
  | .error e => .error e

/-- A freshly constructed `OperationTx` instance, as `SelectTxClass`
builds before parsing: empty `ops`, unpopulated base. -/
def OperationTx.fresh : OperationTx := ⟨BaseTx.mkTx 3 (List.replicate 32 16) none none, []⟩

/-- `OperationTx` constructor: base constructor, then `ops` stored as
authored (never sorted). -/
def OperationTx.mkTx (networkid : Nat) (blockchainid : Bytes)
    (outs : Option (List TransferableOutput))
    (ins : Option (List TransferableInput))
    (ops : Option (List TransferableOperation)) : OperationTx :=
  ⟨BaseTx.mkTx networkid blockchainid outs ins, ops.getD []⟩

/-- `ImportTx`: the base header plus the import-side inputs array. -/
structure ImportTx extends BaseTx where
  importIns : List TransferableInput
deriving DecidableEq, Repr

def ImportTx.bodyBytes (s : ImportTx) : Bytes :=
  s.toBaseTx.bodyBytes ++ u32be s.importIns.length ++
    concatAll (s.importIns.map TransferableInput.toBuffer)

def ImportTx.toBuffer (s : ImportTx) : ImportTx × Bytes :=
  ({ s with toBaseTx := s.toBaseTx.sortState }, s.bodyBytes)

/-- `ImportTx.fromBuffer` pushes the parsed import inputs onto the
existing `importIns` array without resetting it. -/
def ImportTx.fromBuffer (s : ImportTx) (b : Bytes) :
    Except DecErr (ImportTx × Bytes) :=
  match BaseTx.fromBuffer b with
  | .ok (base, b₁) =>
    match readU32 b₁ with
    | .ok (n, b₂) =>
      match readList TransferableInput.fromBuffer n b₂ with
      | .ok (iis, b₃) => .ok (⟨base, s.importIns ++ iis⟩, b₃)
      | .error e => .error e
    | .error e => .error e
  | .error e => .error e

def ImportTx.fresh : ImportTx := ⟨BaseTx.mkTx 3 (List.replicate 32 16) none none, []⟩

def ImportTx.mkTx (networkid : Nat) (blockchainid : Bytes)
    (outs : Option (List TransferableOutput))
    (ins : Option (List TransferableInput))
    (importIns : Option (List TransferableInput)) : ImportTx :=
  ⟨BaseTx.mkTx networkid blockchainid outs ins, importIns.getD []⟩

/-- `ExportTx`: the base header plus the export-side outputs array. -/
structure ExportTx extends BaseTx where
  exportOuts : List TransferableOutput
deriving DecidableEq, Repr

def ExportTx.bodyBytes (s : ExportTx) : Bytes :=
  s.toBaseTx.bodyBytes ++ u32be s.exportOuts.length ++
    concatAll (s.exportOuts.map TransferableOutput.toBuffer)

def ExportTx.toBuffer (s : ExportTx) : ExportTx × Bytes :=
  ({ s with toBaseTx := s.toBaseTx.sortState }, s.bodyBytes)

/-- `ExportTx.fromBuffer` pushes the parsed export outputs onto the
existing `exportOuts` array without resetting it. -/
def ExportTx.fromBuffer (s : ExportTx) (b : Bytes) :
    Except DecErr (ExportTx × Bytes) :=
  match BaseTx.fromBuffer b with
  | .ok (base, b₁) =>
    match readU32 b₁ with
    | .ok (n, b₂) =>
      match readList TransferableOutput.fromBuffer n b₂ with
      | .ok (eos, b₃) => .ok (⟨base, s.exportOuts ++ eos⟩, b₃)
      | .error e => .error e
    | .error e => .error e
  | .error e => .error e

def ExportTx.fresh : ExportTx := ⟨BaseTx.mkTx 3 (List.replicate 32 16) none none, []⟩

def ExportTx.mkTx (networkid : Nat) (blockchainid : Bytes)
    (outs : Option (List TransferableOutput))
    (ins : Option (List TransferableInput))
    (exportOuts : Option (List TransferableOutput)) : ExportTx :=
  ⟨BaseTx.mkTx networkid blockchainid outs ins, exportOuts.getD []⟩

/-! ### UnsignedTx envelope and dispatch (src/apis/avm/tx.ts lines 27-40, 631-672) -/

/-- The dynamic type of a `BaseTx`-rooted instance held by `UnsignedTx`. -/
inductive AnyTx where
  | base (t : BaseTx)
  | createAsset (t : CreateAssetTx)
  | operation (t : OperationTx)
  | importTx (t : ImportTx)
  | exportTx (t : ExportTx)
deriving DecidableEq, Repr

/-- `getTxType()` of each transaction class. -/
def AnyTx.txType : AnyTx → Nat
  | .base _ => BASETX
  | .createAsset _ => CREATEASSETTX
  | .operation _ => OPERATIONTX
  | .importTx _ => IMPORTTX
  | .exportTx _ => EXPORTTX

/-- The body bytes emitted by the held transaction's `toBuffer()`. -/
def AnyTx.bodyBytes : AnyTx → Bytes
  | .base t => t.bodyBytes
  | .createAsset t => t.bodyBytes
  | .operation t => t.bodyBytes
  | .importTx t => t.bodyBytes
  | .exportTx t => t.bodyBytes

/-- The state of the held transaction after its `toBuffer()` sorted the
base arrays in place. -/
def AnyTx.sortState : AnyTx → AnyTx
  | .base t => .base t.sortState
  | .createAsset t => .createAsset { t with toBaseTx := t.toBaseTx.sortState }
  | .operation t => .operation { t with toBaseTx := t.toBaseTx.sortState }
  | .importTx t => .importTx { t with toBaseTx := t.toBaseTx.sortState }
  | .exportTx t => .exportTx { t with toBaseTx := t.toBaseTx.sortState }

/-- `UnsignedTx.toBuffer`: the u32 type tag from `getTxType()` followed
by the transaction body. -/
def UnsignedTx.toBuffer (u : AnyTx) : Bytes := u32be u.txType ++ u.bodyBytes

/-- `UnsignedTx.fromBuffer`: reads the leading u32 type tag and builds
the instance through `SelectTxClass`, which recognises only `BASETX`,
`CREATEASSETTX` and `OPERATIONTX` — every other tag, `IMPORTTX` and
`EXPORTTX` included, throws `unknown txtype` — then calls the fresh
instance's `fromBuffer` on the rest. -/
def UnsignedTx.fromBuffer (b : Bytes) : Except DecErr (AnyTx × Bytes) :=
  match readU32 b with
  | .ok (tag, b₁) =>
    if tag = BASETX then
      match BaseTx.fromBuffer b₁ with
      | .ok (t, r) => .ok (.base t, r)
      | .error e => .error e
    else if tag = CREATEASSETTX then
      match CreateAssetTx.fromBuffer b₁ with
      | .ok (t, r) => .ok (.createAsset t, r)
      | .error e => .error e
    else if tag = OPERATIONTX then
      match OperationTx.fromBuffer OperationTx.fresh b₁ with
      | .ok (t, r) => .ok (.operation t, r)
      | .error e => .error e
    else .error (.unknownTxType tag)
  | .error e => .error e

end Ava

namespace Ava

/-! ### Signing pipeline (src/apis/avm/tx.ts lines 165-180, 402-417, 508-523, 662-667)

The keychain and keypair (keychain.ts, not under src/) are modelled from
the spec as an abstract signer capability: `kc.getKey(source).sign(msg)`
becomes a function from the 20-byte source address and the message digest
to the signature bytes.  `Signature` (types.ts) is a fixed 65-byte wire
value; `sha256` is an abstract hash capability. -/

/-- Modelled from the spec: an abstract keychain: source address and
digest to signature bytes. -/
def KeyChain := Bytes → Bytes → Bytes

/-- Modelled from the spec: a `Credential` (credentials.ts, not under
src/): its u32 credential type id and its ordered signature list. -/
structure Credential where
  credID : Nat
  sigs : List Bytes
deriving DecidableEq, Repr

/-- `BaseTx.sign`: one credential per input, in the order of `this.ins`,
holding one signature per `SigIdx` of that input, looked up through the
signer index's source hint. -/
def BaseTx.sign (s : BaseTx) (msg : Bytes) (kc : KeyChain) : List Credential :=
  s.ins.map fun i =>
    ⟨i.getCredentialID, i.sigIdxs.map fun x => kc x.source msg⟩

/-- `OperationTx.sign`: `super.sign` first (credentials for `this.ins`),
then one credential per operation in authored order. -/
def OperationTx.sign (s : OperationTx) (msg : Bytes) (kc : KeyChain) :
    List Credential :=
  s.toBaseTx.sign msg kc ++
    s.ops.map fun o =>
      ⟨o.operation.getCredentialID, o.operation.sigIdxs.map fun x => kc x.source msg⟩

/-- `UnsignedTx.sign` for an `OperationTx`: `this.toBuffer()` runs first
(sorting the base arrays in place), the digest is the hash of the
envelope bytes, and `transaction.sign` then walks the sorted inputs and
the authored operations of the mutated instance. -/
def UnsignedTx.signOperationTx (s : OperationTx) (hash : Bytes → Bytes)
    (kc : KeyChain) : List Credential :=
  let s₁ : OperationTx := { s with toBaseTx := s.toBaseTx.sortState }
  s₁.sign (hash (UnsignedTx.toBuffer (.operation s₁))) kc

/-! ### Platform chain (src/apis/platform/tx.ts) -/

/-- The state of an `AddDefaultSubnetDelegatorTx` instance.  Every field
is the raw buffer held by the class: `nodeid` and `destination` are
whatever buffers were assigned (allocated at 32 bytes), the four u64
fields are 8-byte buffers and `networkid` a 4-byte buffer. -/
structure AddDefaultSubnetDelegatorTx where
  nodeid : Bytes
  weight : Bytes
  startTime : Bytes
  endTime : Bytes
  networkid : Bytes
  nonce : Bytes
  destination : Bytes
deriving DecidableEq, Repr

/-- The `AddDefaultSubnetDelegatorTx` constructor: stores `nodeid` and
`destination` as given and writes each numeric argument with
`writeUInt32BE(value, 0)` into a zero-filled buffer — 8 bytes for
`weight`, `startTime`, `endTime` and `nonce`, 4 bytes for `networkid` —
so the u32 value lands in the first four bytes of each u64 buffer. -/
def AddDefaultSubnetDelegatorTx.mkTx (nodeid : Bytes)
    (weight startTime endTime networkid nonce : Nat)
    (destination : Bytes) : AddDefaultSubnetDelegatorTx :=
  ⟨nodeid, u32be weight ++ [0, 0, 0, 0], u32be startTime ++ [0, 0, 0, 0],
    u32be endTime ++ [0, 0, 0, 0], u32be networkid,
    u32be nonce ++ [0, 0, 0, 0], destination⟩

/-- `AddDefaultSubnetDelegatorTx.toBuffer`: plain concatenation of the
seven field buffers, with no input or output vectors. -/
def AddDefaultSubnetDelegatorTx.toBuffer (s : AddDefaultSubnetDelegatorTx) : Bytes :=
  s.nodeid ++ s.weight ++ s.startTime ++ s.endTime ++ s.networkid ++
    s.nonce ++ s.destination

/-- `AddDefaultSubnetDelegatorTx.fromBuffer`: fixed-width reads of
32 + 8 + 8 + 8 + 4 + 8 + 32 bytes. -/
def AddDefaultSubnetDelegatorTx.fromBuffer (b : Bytes) :
    Except DecErr (AddDefaultSubnetDelegatorTx × Bytes) :=
  match readBytes 32 b with
  | .ok (nid, b₁) =>
    match readBytes 8 b₁ with
    | .ok (w, b₂) =>
      match readBytes 8 b₂ with
      | .ok (st, b₃) =>
        match readBytes 8 b₃ with
        | .ok (et, b₄) =>
          match readBytes 4 b₄ with
          | .ok (nw, b₅) =>
            match readBytes 8 b₅ with
            | .ok (no, b₆) =>
              match readBytes 32 b₆ with
              | .ok (dst, b₇) => .ok (⟨nid, w, st, et, nw, no, dst⟩, b₇)
              | .error e => .error e
            | .error e => .error e
          | .error e => .error e
        | .error e => .error e
      | .error e => .error e
    | .error e => .error e
  | .error e => .error e

/-- `getWeight()` reads the buffer with `readUInt32BE(0)`: the first
four bytes only. -/
def AddDefaultSubnetDelegatorTx.getWeight (s : AddDefaultSubnetDelegatorTx) : Nat :=
  beVal (s.weight.take 4)

end Ava

namespace Ava

/-! ### Well-formedness

Field-size constraints under which the byte codec is faithful: fixed-width
ids have their fixed lengths, counts and u32/u16 fields fit their width,
decoded-state constraints hold (`SigIdx.source` hints are empty, the
sorted sections are in canonical order, as the spec's data-model
invariants require of a well-formed transaction). -/

abbrev WFsig (x : SigIdx) : Prop := x.addressIdx < 2 ^ 32 ∧ x.source = []

abbrev WFout (o : TransferableOutput) : Prop :=
  o.assetID.length = 32 ∧ o.outputTypeID < 2 ^ 32 ∧ o.payload.length < 2 ^ 32

abbrev WFin (i : TransferableInput) : Prop :=
  i.txid.length = 32 ∧ i.outputIdx < 2 ^ 32 ∧ i.assetID.length = 32 ∧
    i.inputTypeID < 2 ^ 32 ∧ i.sigIdxs.length < 2 ^ 32 ∧ ∀ x ∈ i.sigIdxs, WFsig x

abbrev WFutxo (u : UTXOID) : Prop := u.txid.length = 32 ∧ u.outputIdx < 2 ^ 32

abbrev WFop (t : TransferableOperation) : Prop :=
  t.assetID.length = 32 ∧ t.utxoIDs.length < 2 ^ 32 ∧
    (∀ u ∈ t.utxoIDs, WFutxo u) ∧ t.operation.sigIdxs.length < 2 ^ 32 ∧
    (∀ x ∈ t.operation.sigIdxs, WFsig x) ∧ t.operation.output.length < 2 ^ 32

abbrev WFbase (s : BaseTx) : Prop :=
  s.networkid < 2 ^ 32 ∧ s.blockchainid.length = 32 ∧
    s.outs.length < 2 ^ 32 ∧ s.ins.length < 2 ^ 32 ∧
    (∀ o ∈ s.outs, WFout o) ∧ (∀ i ∈ s.ins, WFin i) ∧
    List.Sorted leOut s.outs ∧ List.Sorted leIn s.ins

/-- A JS string whose code points are all ASCII (single-byte UTF-8). -/
abbrev asciiStr (cps : List Nat) : Prop := ∀ c ∈ cps, c < 0x80

abbrev WFca (s : CreateAssetTx) : Prop :=
  WFbase s.toBaseTx ∧ asciiStr s.name ∧ jsLength s.name < 2 ^ 16 ∧
    asciiStr s.symbol ∧ jsLength s.symbol < 2 ^ 16 ∧
    s.denomination < 256 ∧ s.initialstate.length < 2 ^ 32

abbrev WFopTx (s : OperationTx) : Prop :=
  WFbase s.toBaseTx ∧ s.ops.length < 2 ^ 32 ∧ ∀ t ∈ s.ops, WFop t

abbrev WFimp (s : ImportTx) : Prop :=
  WFbase s.toBaseTx ∧ s.importIns.length < 2 ^ 32 ∧ ∀ i ∈ s.importIns, WFin i

abbrev WFexp (s : ExportTx) : Prop :=
  WFbase s.toBaseTx ∧ s.exportOuts.length < 2 ^ 32 ∧ ∀ o ∈ s.exportOuts, WFout o

/-! ### Concrete fixtures used by witnesses and counterexamples -/

/-- An empty base transaction with the constructor defaults. -/
def exBase : BaseTx := BaseTx.mkTx 3 (List.replicate 32 16) (some []) (some [])

/-- An output whose canonical bytes sort first among the fixtures. -/
def exOutA : TransferableOutput := ⟨List.replicate 32 0, 0, []⟩

/-- An output whose canonical bytes sort after `exOutA`. -/
def exOutB : TransferableOutput := ⟨List.replicate 32 2, 0, []⟩

/-- An input with no signer indices. -/
def exIn0 : TransferableInput := ⟨List.replicate 32 0, 0, List.replicate 32 0, 0, []⟩

/-- An input requiring two signatures, with distinct source hints. -/
def exIn1 : TransferableInput :=
  ⟨List.replicate 32 0, 0, List.replicate 32 0, 0, [⟨0, [1]⟩, ⟨1, [2]⟩]⟩

/-- A second two-signature input, sorting after `exIn1`. -/
def exIn2 : TransferableInput :=
  ⟨List.replicate 32 1, 0, List.replicate 32 0, 0, [⟨0, [3]⟩, ⟨1, [4]⟩]⟩

/-- An NFT operation requiring one signature. -/
def exOp1 : TransferableOperation := ⟨List.replicate 32 1, [], ⟨[⟨0, [5]⟩], []⟩⟩

/-- A well-formed NFT operation with one UTXO id and no signers. -/
def exOp0 : TransferableOperation := ⟨List.replicate 32 1, [⟨List.replicate 32 3, 7⟩], ⟨[], [9]⟩⟩

/-- The `OperationTx` of scenario S5: two inputs with two signer indices
each and one NFT operation with one. -/
def exOpTx : OperationTx :=
  OperationTx.mkTx 3 (List.replicate 32 16) (some []) (some [exIn1, exIn2]) (some [exOp1])

/-- A deterministic mock keychain producing 65-byte signatures. -/
def exKc : KeyChain := fun _ _ => List.replicate 65 0

/-- A mock hash capability. -/
def exHash : Bytes → Bytes := fun b => b.take 32

/-- A well-formed ASCII create-asset transaction (name "TestAsset",
symbol "TST", denomination 9). -/
def exCA : CreateAssetTx :=
  ⟨exBase, [84, 101, 115, 116, 65, 115, 115, 101, 116], [84, 83, 84], 9, [1]⟩

/-- A create-asset transaction whose name is the single non-ASCII code
point U+00E9 (a two-byte UTF-8 character). -/
def exCAnonAscii : CreateAssetTx := ⟨exBase, [0xE9], [], 9, []⟩

/-- A well-formed `OperationTx` fixture. -/
def exOpTxWF : OperationTx := ⟨exBase, [exOp0]⟩

/-- A well-formed `ImportTx` fixture. -/
def exImpTx : ImportTx := ⟨exBase, [exIn0]⟩

/-- A well-formed `ExportTx` fixture. -/
def exExpTx : ExportTx := ⟨exBase, [exOutA]⟩

/-- A decode stream for a base transaction whose two outputs arrive in
non-canonical order (`exOutB` before `exOutA`). -/
def exUnsortedStream : Bytes :=
  u32be 3 ++ List.replicate 32 16 ++ u32be 2 ++ exOutB.toBuffer ++
    exOutA.toBuffer ++ u32be 0

/-- The platform-chain delegator transaction with all-zero fields. -/
def exPlatZero : AddDefaultSubnetDelegatorTx :=
  AddDefaultSubnetDelegatorTx.mkTx (List.replicate 32 0) 0 0 0 0 0 (List.replicate 32 0)

/-- The platform-chain delegator transaction with weight 1. -/
def exPlatW1 : AddDefaultSubnetDelegatorTx :=
  AddDefaultSubnetDelegatorTx.mkTx (List.replicate 32 0) 1 2 3 4 5 (List.replicate 32 0)

end Ava

namespace Ava

/-! ### Order properties of the canonical comparator -/

theorem bleb_total : ∀ a b : Bytes, bleb a b = true ∨ bleb b a = true
  | [], _ => Or.inl rfl
  | _ :: _, [] => Or.inr rfl
  | a :: as, b :: bs => by
    simp only [bleb, Bool.or_eq_true, decide_eq_true_eq, Bool.and_eq_true,
      beq_iff_eq]
    rcases Nat.lt_trichotomy a b with h | h | h
    · exact Or.inl (Or.inl h)
    · rcases bleb_total as bs with h₂ | h₂
      · exact Or.inl (Or.inr ⟨h, h₂⟩)
      · exact Or.inr (Or.inr ⟨h.symm, h₂⟩)
    · exact Or.inr (Or.inl h)

theorem bleb_trans : ∀ a b c : Bytes,
    bleb a b = true → bleb b c = true → bleb a c = true
  | [], _, _, _, _ => rfl
  | _ :: _, [], _, h, _ => by simp [bleb] at h
  | _ :: _, _ :: _, [], _, h => by simp [bleb] at h
  | a :: as, b :: bs, c :: cs, h₁, h₂ => by
    simp only [bleb, Bool.or_eq_true, decide_eq_true_eq, Bool.and_eq_true,
      beq_iff_eq] at h₁ h₂ ⊢
    rcases h₁ with h₁ | ⟨rfl, h₁⟩
    · rcases h₂ with h₂ | ⟨rfl, _⟩
      · exact Or.inl (h₁.trans h₂)
      · exact Or.inl h₁
    · rcases h₂ with h₂ | ⟨rfl, h₂⟩
      · exact Or.inl h₂
      · exact Or.inr ⟨rfl, bleb_trans as bs cs h₁ h₂⟩

theorem bleb_antisymm : ∀ a b : Bytes,
    bleb a b = true → bleb b a = true → a = b
  | [], [], _, _ => rfl
  | [], _ :: _, _, h => by simp [bleb] at h
  | _ :: _, [], h, _ => by simp [bleb] at h
  | a :: as, b :: bs, h₁, h₂ => by
    simp only [bleb, Bool.or_eq_true, decide_eq_true_eq, Bool.and_eq_true,
      beq_iff_eq] at h₁ h₂
    rcases h₁ with h₁ | ⟨rfl, h₁⟩
    · rcases h₂ with h₂ | ⟨h₂, _⟩ <;> omega
    · rcases h₂ with h₂ | ⟨_, h₂⟩
      · omega
      · rw [bleb_antisymm as bs h₁ h₂]

instance : IsTotal Bytes leB := ⟨bleb_total⟩
instance : IsTrans Bytes leB := ⟨bleb_trans⟩
instance : IsAntisymm Bytes leB := ⟨bleb_antisymm⟩
instance : IsTotal TransferableOutput leOut :=
  ⟨fun a b => bleb_total (cbOut a) (cbOut b)⟩
instance : IsTrans TransferableOutput leOut :=
  ⟨fun a b c => bleb_trans (cbOut a) (cbOut b) (cbOut c)⟩
instance : IsTotal TransferableInput leIn :=
  ⟨fun a b => bleb_total (cbIn a) (cbIn b)⟩
instance : IsTrans TransferableInput leIn :=
  ⟨fun a b c => bleb_trans (cbIn a) (cbIn b) (cbIn c)⟩

theorem sorted_sortOuts (l : List TransferableOutput) :
    List.Sorted leOut (sortOuts l) :=
  List.sorted_insertionSort leOut l

theorem sorted_sortIns (l : List TransferableInput) :
    List.Sorted leIn (sortIns l) :=
  List.sorted_insertionSort leIn l

theorem perm_sortOuts (l : List TransferableOutput) : (sortOuts l).Perm l :=
  List.perm_insertionSort leOut l

theorem perm_sortIns (l : List TransferableInput) : (sortIns l).Perm l :=
  List.perm_insertionSort leIn l

theorem sortOuts_eq_of_sorted {l : List TransferableOutput}
    (h : List.Sorted leOut l) : sortOuts l = l :=
  h.insertionSort_eq

theorem sortIns_eq_of_sorted {l : List TransferableInput}
    (h : List.Sorted leIn l) : sortIns l = l :=
  h.insertionSort_eq

theorem sorted_map_cbOut (l : List TransferableOutput) :
    List.Sorted leB ((sortOuts l).map cbOut) :=
  List.Pairwise.map cbOut (fun _ _ h => h) (sorted_sortOuts l)

theorem sorted_map_cbIn (l : List TransferableInput) :
    List.Sorted leB ((sortIns l).map cbIn) :=
  List.Pairwise.map cbIn (fun _ _ h => h) (sorted_sortIns l)

/-- Two permutations of the same outputs sort to lists with identical
canonical-byte sequences. -/
theorem sortOuts_map_cb_eq {l₁ l₂ : List TransferableOutput} (h : l₁.Perm l₂) :
    (sortOuts l₁).map cbOut = (sortOuts l₂).map cbOut :=
  List.eq_of_perm_of_sorted
    (((perm_sortOuts l₁).trans (h.trans (perm_sortOuts l₂).symm)).map cbOut)
    (sorted_map_cbOut l₁) (sorted_map_cbOut l₂)

theorem sortIns_map_cb_eq {l₁ l₂ : List TransferableInput} (h : l₁.Perm l₂) :
    (sortIns l₁).map cbIn = (sortIns l₂).map cbIn :=
  List.eq_of_perm_of_sorted
    (((perm_sortIns l₁).trans (h.trans (perm_sortIns l₂).symm)).map cbIn)
    (sorted_map_cbIn l₁) (sorted_map_cbIn l₂)

/-- An element's serialized form is its canonical bytes without the
4-byte type-id prefix. -/
theorem toBuffer_eq_drop_cbOut (o : TransferableOutput) :
    o.toBuffer = (cbOut o).drop 4 := by
  simp [cbOut, u32be]

theorem toBuffer_eq_drop_cbIn (i : TransferableInput) :
    i.toBuffer = (cbIn i).drop 4 := by
  simp [cbIn, u32be]

theorem sortOuts_map_toBuffer_eq {l₁ l₂ : List TransferableOutput}
    (h : l₁.Perm l₂) :
    (sortOuts l₁).map TransferableOutput.toBuffer =
      (sortOuts l₂).map TransferableOutput.toBuffer := by
  have key : ∀ l : List TransferableOutput,
      l.map TransferableOutput.toBuffer = (l.map cbOut).map (List.drop 4) := by
    intro l
    rw [List.map_map]
    exact List.map_congr_left fun o _ => toBuffer_eq_drop_cbOut o
  rw [key, key, sortOuts_map_cb_eq h]

theorem sortIns_map_toBuffer_eq {l₁ l₂ : List TransferableInput}
    (h : l₁.Perm l₂) :
    (sortIns l₁).map TransferableInput.toBuffer =
      (sortIns l₂).map TransferableInput.toBuffer := by
  have key : ∀ l : List TransferableInput,
      l.map TransferableInput.toBuffer = (l.map cbIn).map (List.drop 4) := by
    intro l
    rw [List.map_map]
    exact List.map_congr_left fun i _ => toBuffer_eq_drop_cbIn i
  rw [key, key, sortIns_map_cb_eq h]

/-! ### Primitive codec round-trip lemmas -/

theorem u32be_length (v : Nat) : (u32be v).length = 4 := rfl

theorem u16be_length (v : Nat) : (u16be v).length = 2 := rfl

theorem beVal_u32be {v : Nat} (h : v < 2 ^ 32) : beVal (u32be v) = v := by
  simp only [beVal, u32be, List.foldl]
  omega

theorem beVal_u16be {v : Nat} (h : v < 2 ^ 16) : beVal (u16be v) = v := by
  simp only [beVal, u16be, List.foldl]
  omega

theorem readBytes_pre {l : Bytes} {n : Nat} (h : l.length = n) (r : Bytes) :
    readBytes n (l ++ r) = .ok (l, r) := by
  subst h
  rw [readBytes, if_pos (by simp)]
  rw [List.take_left, List.drop_left]

theorem readU32_pre {v : Nat} (h : v < 2 ^ 32) (r : Bytes) :
    readU32 (u32be v ++ r) = .ok (v, r) := by
  unfold readU32
  rw [readBytes_pre (u32be_length v) r]
  show Except.ok (beVal (u32be v), r) = Except.ok (v, r)
  rw [beVal_u32be h]

theorem readU16_pre {v : Nat} (h : v < 2 ^ 16) (r : Bytes) :
    readU16 (u16be v ++ r) = .ok (v, r) := by
  unfold readU16
  rw [readBytes_pre (u16be_length v) r]
  show Except.ok (beVal (u16be v), r) = Except.ok (v, r)
  rw [beVal_u16be h]

theorem concatAll_cons (x : Bytes) (xs : List Bytes) :
    concatAll (x :: xs) = x ++ concatAll xs := rfl

/-- Decoding a count-prefixed section: when every element decodes from
its own encoding, the loop returns exactly the encoded list. -/
theorem readList_pre {A : Type} (dec : Bytes → Except DecErr (A × Bytes))
    (enc : A → Bytes) :
    ∀ (xs : List A) (r : Bytes),
      (∀ x ∈ xs, ∀ s, dec (enc x ++ s) = .ok (x, s)) →
      readList dec xs.length (concatAll (xs.map enc) ++ r) = .ok (xs, r)
  | [], r, _ => by simp [concatAll, readList]
  | x :: xs, r, h => by
    have hx := h x (List.mem_cons_self x xs)
    have ih := readList_pre dec enc xs r fun y hy => h y (List.mem_cons_of_mem x hy)
    rw [List.length_cons, List.map_cons, concatAll_cons, List.append_assoc]
    simp only [readList, hx, ih]

end Ava

namespace Ava

/-! ### Element round-trips -/

theorem sigIdx_roundtrip (x : SigIdx) (h : WFsig x) (r : Bytes) :
    SigIdx.fromBuffer (x.toBuffer ++ r) = .ok (x, r) := by
  obtain ⟨h₁, h₂⟩ := h
  cases x
  subst h₂
  simp only [SigIdx.toBuffer, SigIdx.fromBuffer, readU32_pre h₁]

theorem utxoid_roundtrip (u : UTXOID) (h : WFutxo u) (r : Bytes) :
    UTXOID.fromBuffer (u.toBuffer ++ r) = .ok (u, r) := by
  obtain ⟨h₁, h₂⟩ := h
  cases u
  simp only [UTXOID.toBuffer, UTXOID.fromBuffer, List.append_assoc,
    readBytes_pre h₁, readU32_pre h₂]

theorem transferableOutput_roundtrip (o : TransferableOutput) (h : WFout o) (r : Bytes) :
    TransferableOutput.fromBuffer (o.toBuffer ++ r) = .ok (o, r) := by
  obtain ⟨h₁, h₂, h₃⟩ := h
  cases o
  simp only [TransferableOutput.toBuffer, TransferableOutput.fromBuffer,
    List.append_assoc, readBytes_pre h₁, readU32_pre h₂, readU32_pre h₃,
    readBytes_pre rfl]

theorem transferableInput_roundtrip (i : TransferableInput) (h : WFin i) (r : Bytes) :
    TransferableInput.fromBuffer (i.toBuffer ++ r) = .ok (i, r) := by
  obtain ⟨h₁, h₂, h₃, h₄, h₅, h₆⟩ := h
  cases i with
  | mk txid oidx aid tid idxs =>
    have hsl : ∀ s, readList SigIdx.fromBuffer idxs.length
        (concatAll (idxs.map SigIdx.toBuffer) ++ s) = .ok (idxs, s) :=
      fun s => readList_pre SigIdx.fromBuffer SigIdx.toBuffer idxs s
        (fun x hx s' => sigIdx_roundtrip x (h₆ x hx) s')
    simp only [TransferableInput.toBuffer, TransferableInput.fromBuffer,
      List.append_assoc, readBytes_pre h₁, readU32_pre h₂, readBytes_pre h₃,
      readU32_pre h₄, readU32_pre h₅, hsl]

theorem nftOp_roundtrip (o : NFTTransferOperation)
    (hn : o.sigIdxs.length < 2 ^ 32) (hs : ∀ x ∈ o.sigIdxs, WFsig x)
    (ho : o.output.length < 2 ^ 32) (r : Bytes) :
    NFTTransferOperation.fromBuffer (o.toBuffer ++ r) = .ok (o, r) := by
  cases o with
  | mk idxs ob =>
    have hsl : ∀ s, readList SigIdx.fromBuffer idxs.length
        (concatAll (idxs.map SigIdx.toBuffer) ++ s) = .ok (idxs, s) :=
      fun s => readList_pre SigIdx.fromBuffer SigIdx.toBuffer idxs s
        (fun x hx s' => sigIdx_roundtrip x (hs x hx) s')
    simp only [NFTTransferOperation.toBuffer, NFTTransferOperation.fromBuffer,
      List.append_assoc, readU32_pre hn, hsl, readU32_pre ho, readBytes_pre rfl]

theorem transferableOperation_roundtrip (t : TransferableOperation) (h : WFop t)
    (r : Bytes) :
    TransferableOperation.fromBuffer (t.toBuffer ++ r) = .ok (t, r) := by
  obtain ⟨h₁, h₂, h₃, h₄, h₅, h₆⟩ := h
  cases t with
  | mk aid us op =>
    have hul : ∀ s, readList UTXOID.fromBuffer us.length
        (concatAll (us.map UTXOID.toBuffer) ++ s) = .ok (us, s) :=
      fun s => readList_pre UTXOID.fromBuffer UTXOID.toBuffer us s
        (fun x hx s' => utxoid_roundtrip x (h₃ x hx) s')
    have hop : ∀ s, NFTTransferOperation.fromBuffer (op.toBuffer ++ s) =
        .ok (op, s) := fun s => nftOp_roundtrip op h₄ h₅ h₆ s
    simp only [TransferableOperation.toBuffer, TransferableOperation.fromBuffer,
      List.append_assoc, readBytes_pre h₁, readU32_pre h₂, hul,
      readU32_pre (show NFTXFEROP < 2 ^ 32 by decide), if_pos rfl, hop, if_true]

/-! ### Transaction round-trips -/

theorem baseTx_roundtrip (s : BaseTx) (h : WFbase s) (r : Bytes) :
    BaseTx.fromBuffer (s.bodyBytes ++ r) = .ok (s, r) := by
  obtain ⟨h₁, h₂, h₃, h₄, h₅, h₆, h₇, h₈⟩ := h
  cases s with
  | mk nid bcid os is =>
    have hos : ∀ t, readList TransferableOutput.fromBuffer os.length
        (concatAll (os.map TransferableOutput.toBuffer) ++ t) = .ok (os, t) :=
      fun t => readList_pre TransferableOutput.fromBuffer
        TransferableOutput.toBuffer os t (fun x hx t' => transferableOutput_roundtrip x (h₅ x hx) t')
    have his : ∀ t, readList TransferableInput.fromBuffer is.length
        (concatAll (is.map TransferableInput.toBuffer) ++ t) = .ok (is, t) :=
      fun t => readList_pre TransferableInput.fromBuffer
        TransferableInput.toBuffer is t (fun x hx t' => transferableInput_roundtrip x (h₆ x hx) t')
    simp only [BaseTx.bodyBytes, BaseTx.encodedOuts, BaseTx.encodedIns,
      sortOuts_eq_of_sorted h₇, sortIns_eq_of_sorted h₈]
    simp only [BaseTx.fromBuffer, List.append_assoc, readU32_pre h₁,
      readBytes_pre h₂, readU32_pre h₃, hos, readU32_pre h₄, his]

end Ava

namespace Ava

/-! ### ASCII strings round-trip through the name/symbol codec -/

theorem jsLength_ascii {cps : List Nat} (h : asciiStr cps) :
    jsLength cps = cps.length := by
  induction cps with
  | nil => rfl
  | cons c cs ih =>
    have hc : c < 0x10000 := by
      have := h c (List.mem_cons_self c cs)
      omega
    have h' : asciiStr cs := fun x hx => h x (List.mem_cons_of_mem c hx)
    simp only [jsLength, List.map_cons, List.sum_cons, if_pos hc] at *
    rw [ih h', List.length_cons]
    omega

theorem utf8Bytes_ascii {c : Nat} (h : c < 0x80) : utf8Bytes c = [c] := by
  rw [utf8Bytes, if_pos h]

theorem truncWriteAux_ascii {cps : List Nat} (h : asciiStr cps) :
    truncWriteAux cps cps.length = cps := by
  induction cps with
  | nil => rfl
  | cons c cs ih =>
    have hc := h c (List.mem_cons_self c cs)
    have h' : asciiStr cs := fun x hx => h x (List.mem_cons_of_mem c hx)
    show (if (utf8Bytes c).length ≤ (c :: cs).length then
        utf8Bytes c ++ truncWriteAux cs ((c :: cs).length - (utf8Bytes c).length)
      else []) = c :: cs
    rw [utf8Bytes_ascii hc]
    simp only [List.length_cons, List.length_nil]
    rw [if_pos (by omega), show cs.length + 1 - (0 + 1) = cs.length from by omega,
      ih h', List.singleton_append]

theorem writeUtf8Alloc_ascii {cps : List Nat} (h : asciiStr cps) :
    writeUtf8Alloc cps (jsLength cps) = cps := by
  rw [jsLength_ascii h]
  simp [writeUtf8Alloc, truncWriteAux_ascii h]

theorem utf8DecodeAux_ascii (fuel : Nat) :
    ∀ cps : List Nat, cps.length ≤ fuel → asciiStr cps →
      utf8DecodeAux fuel cps = cps := by
  induction fuel with
  | zero =>
    intro cps hlen _
    cases cps with
    | nil => rfl
    | cons c cs => simp at hlen
  | succ n ih =>
    intro cps hlen h
    cases cps with
    | nil => rfl
    | cons c cs =>
      have hc := h c (List.mem_cons_self c cs)
      have h' : asciiStr cs := fun x hx => h x (List.mem_cons_of_mem c hx)
      simp only [utf8DecodeAux, utf8Step, if_pos hc]
      rw [ih cs (by simp only [List.length_cons] at hlen; omega) h']

theorem utf8Decode_ascii {cps : List Nat} (h : asciiStr cps) :
    utf8Decode cps = cps :=
  utf8DecodeAux_ascii cps.length cps le_rfl h

theorem readU8_cons (x : Nat) (r : Bytes) : readU8 (x :: r) = .ok (x, r) := rfl

/-! ### Round-trips of the remaining transaction kinds -/

theorem createAssetTx_roundtrip (s : CreateAssetTx) (h : WFca s) (r : Bytes) :
    CreateAssetTx.fromBuffer (s.bodyBytes ++ r) = .ok (s, r) := by
  obtain ⟨hb, han, hnl, has, hsl, hd, hi⟩ := h
  cases s with
  | mk base nm sym d ist =>
    have hbase : ∀ t, BaseTx.fromBuffer (base.bodyBytes ++ t) = .ok (base, t) :=
      fun t => baseTx_roundtrip base hb t
    simp only at han has hnl hsl hd hi
    simp only [CreateAssetTx.bodyBytes, writeUtf8Alloc_ascii han,
      writeUtf8Alloc_ascii has]
    rw [jsLength_ascii han] at hnl ⊢
    rw [jsLength_ascii has] at hsl ⊢
    simp only [CreateAssetTx.fromBuffer, List.append_assoc, hbase,
      readU16_pre hnl, readU16_pre hsl, readBytes_pre rfl,
      utf8Decode_ascii han, utf8Decode_ascii has, List.singleton_append,
      List.cons_append, List.nil_append, Nat.mod_eq_of_lt hd, readU8_cons,
      readU32_pre hi]

theorem operationTx_roundtrip (s : OperationTx) (h : WFopTx s) (r : Bytes) :
    OperationTx.fromBuffer OperationTx.fresh (s.bodyBytes ++ r) = .ok (s, r) := by
  obtain ⟨hb, hn, hops⟩ := h
  cases s with
  | mk base ops =>
    have hbase : ∀ t, BaseTx.fromBuffer (base.bodyBytes ++ t) = .ok (base, t) :=
      fun t => baseTx_roundtrip base hb t
    have hol : ∀ t, readList TransferableOperation.fromBuffer ops.length
        (concatAll (ops.map TransferableOperation.toBuffer) ++ t) = .ok (ops, t) :=
      fun t => readList_pre TransferableOperation.fromBuffer
        TransferableOperation.toBuffer ops t
        (fun x hx t' => transferableOperation_roundtrip x (hops x hx) t')
    simp only at hn
    simp only [OperationTx.bodyBytes, OperationTx.fromBuffer, List.append_assoc,
      hbase, readU32_pre hn, hol, OperationTx.fresh, List.nil_append]

theorem importTx_roundtrip (s : ImportTx) (h : WFimp s) (r : Bytes) :
    ImportTx.fromBuffer ImportTx.fresh (s.bodyBytes ++ r) = .ok (s, r) := by
  obtain ⟨hb, hn, hins⟩ := h
  cases s with
  | mk base iis =>
    have hbase : ∀ t, BaseTx.fromBuffer (base.bodyBytes ++ t) = .ok (base, t) :=
      fun t => baseTx_roundtrip base hb t
    have hil : ∀ t, readList TransferableInput.fromBuffer iis.length
        (concatAll (iis.map TransferableInput.toBuffer) ++ t) = .ok (iis, t) :=
      fun t => readList_pre TransferableInput.fromBuffer
        TransferableInput.toBuffer iis t
        (fun x hx t' => transferableInput_roundtrip x (hins x hx) t')
    simp only at hn
    simp only [ImportTx.bodyBytes, ImportTx.fromBuffer, List.append_assoc,
      hbase, readU32_pre hn, hil, ImportTx.fresh, List.nil_append]

theorem exportTx_roundtrip (s : ExportTx) (h : WFexp s) (r : Bytes) :
    ExportTx.fromBuffer ExportTx.fresh (s.bodyBytes ++ r) = .ok (s, r) := by
  obtain ⟨hb, hn, houts⟩ := h
  cases s with
  | mk base eos =>
    have hbase : ∀ t, BaseTx.fromBuffer (base.bodyBytes ++ t) = .ok (base, t) :=
      fun t => baseTx_roundtrip base hb t
    have hel : ∀ t, readList TransferableOutput.fromBuffer eos.length
        (concatAll (eos.map TransferableOutput.toBuffer) ++ t) = .ok (eos, t) :=
      fun t => readList_pre TransferableOutput.fromBuffer
        TransferableOutput.toBuffer eos t
        (fun x hx t' => transferableOutput_roundtrip x (houts x hx) t')
    simp only at hn
    simp only [ExportTx.bodyBytes, ExportTx.fromBuffer, List.append_assoc,
      hbase, readU32_pre hn, hel, ExportTx.fresh, List.nil_append]

end Ava

namespace Ava

theorem readBytes_all {l : Bytes} {n : Nat} (h : l.length = n) :
    readBytes n l = .ok (l, []) := by
  have hx := readBytes_pre h ([] : Bytes)
  rwa [List.append_nil] at hx

theorem beVal_u64pad {v : Nat} (h : v < 2 ^ 32) :
    beVal (u32be v ++ [0, 0, 0, 0]) = v * 2 ^ 32 := by
  simp only [beVal, u32be, List.cons_append, List.nil_append, List.foldl]
  omega

/-- An 8-byte u64 buffer written by `writeUInt32BE(v, 0)` reads back as
one 8-byte unit. -/
theorem readBytes_u64pad (v : Nat) (r : Bytes) :
    readBytes 8 (u32be v ++ ([0, 0, 0, 0] ++ r)) =
      .ok (u32be v ++ [0, 0, 0, 0], r) := by
  have hx := readBytes_pre (show (u32be v ++ [0, 0, 0, 0]).length = 8 from rfl) r
  rwa [List.append_assoc] at hx

/-- A 4-byte u32 buffer reads back as one unit. -/
theorem readBytes_u32 (v : Nat) (r : Bytes) :
    readBytes 4 (u32be v ++ r) = .ok (u32be v, r) :=
  readBytes_pre (show (u32be v).length = 4 from rfl) r

/-! ### Claim theorems -/

/-- C8: a `BaseTx` with network id 3, blockchain id of 32 bytes 0x10 and
empty outputs and inputs encodes to exactly the 44-byte body
`00 00 00 03 || 0x10*32 || 00 00 00 00 || 00 00 00 00`, and this encoding
round-trips through decode. -/
theorem C8_empty_base :
    exBase.bodyBytes =
      [0, 0, 0, 3] ++ List.replicate 32 16 ++ [0, 0, 0, 0] ++ [0, 0, 0, 0] ∧
    exBase.bodyBytes.length = 44 ∧
    BaseTx.fromBuffer exBase.bodyBytes = .ok (exBase, []) := by
  decide

/-- C1 counterexample: a `CreateAssetTx` whose name is the non-ASCII
code point U+00E9 does not round-trip: the encoder sizes the name buffer
with the JS string length (1) while the character needs two UTF-8 bytes,
so a zero byte is written and decode returns the name `[0]`. -/
theorem C1_counterexample :
    CreateAssetTx.fromBuffer exCAnonAscii.bodyBytes =
      .ok (⟨exBase, [0], [], 9, []⟩, []) ∧
    (⟨exBase, [0], [], 9, []⟩ : CreateAssetTx) ≠ exCAnonAscii := by
  decide

/-- C1 (amended): decoding the bytes produced by encoding yields an equal
transaction for every well-formed transaction of each of the five kinds,
provided a `CreateAssetTx` name and symbol contain only ASCII
(single-byte UTF-8) code points; for multi-byte characters the encoder
truncates and the round-trip fails. -/
theorem C1_roundtrip :
    (∀ s : BaseTx, WFbase s → BaseTx.fromBuffer s.bodyBytes = .ok (s, [])) ∧
    (∀ s : CreateAssetTx, WFca s →
      CreateAssetTx.fromBuffer s.bodyBytes = .ok (s, [])) ∧
    (∀ s : OperationTx, WFopTx s →
      OperationTx.fromBuffer OperationTx.fresh s.bodyBytes = .ok (s, [])) ∧
    (∀ s : ImportTx, WFimp s →
      ImportTx.fromBuffer ImportTx.fresh s.bodyBytes = .ok (s, [])) ∧
    (∀ s : ExportTx, WFexp s →
      ExportTx.fromBuffer ExportTx.fresh s.bodyBytes = .ok (s, [])) := by
  refine ⟨fun s h => ?_, fun s h => ?_, fun s h => ?_, fun s h => ?_, fun s h => ?_⟩
  · have hx := baseTx_roundtrip s h []
    rwa [List.append_nil] at hx
  · have hx := createAssetTx_roundtrip s h []
    rwa [List.append_nil] at hx
  · have hx := operationTx_roundtrip s h []
    rwa [List.append_nil] at hx
  · have hx := importTx_roundtrip s h []
    rwa [List.append_nil] at hx
  · have hx := exportTx_roundtrip s h []
    rwa [List.append_nil] at hx

/-- C1 witness: the round-trip theorem applied to one concrete
well-formed transaction of each kind. -/
theorem C1_witness :
    BaseTx.fromBuffer exBase.bodyBytes = .ok (exBase, []) ∧
    CreateAssetTx.fromBuffer exCA.bodyBytes = .ok (exCA, []) ∧
    OperationTx.fromBuffer OperationTx.fresh exOpTxWF.bodyBytes = .ok (exOpTxWF, []) ∧
    ImportTx.fromBuffer ImportTx.fresh exImpTx.bodyBytes = .ok (exImpTx, []) ∧
    ExportTx.fromBuffer ExportTx.fresh exExpTx.bodyBytes = .ok (exExpTx, []) :=
  ⟨C1_roundtrip.1 exBase (by decide), C1_roundtrip.2.1 exCA (by decide),
    C1_roundtrip.2.2.1 exOpTxWF (by decide),
    C1_roundtrip.2.2.2.1 exImpTx (by decide),
    C1_roundtrip.2.2.2.2 exExpTx (by decide)⟩

/-- C2: the outputs and inputs sections emitted by `BaseTx.toBuffer` are
in non-decreasing lexicographic order of the elements' canonical bytes,
and two `BaseTx` values constructed from permutations of the same
outputs and inputs encode to byte-identical buffers. -/
theorem C2_canonical_sort (nid : Nat) (bcid : Bytes)
    (outs outs' : List TransferableOutput) (ins ins' : List TransferableInput)
    (ho : outs.Perm outs') (hi : ins.Perm ins') :
    List.Sorted leB
      ((BaseTx.mkTx nid bcid (some outs) (some ins)).encodedOuts.map cbOut) ∧
    List.Sorted leB
      ((BaseTx.mkTx nid bcid (some outs) (some ins)).encodedIns.map cbIn) ∧
    (BaseTx.mkTx nid bcid (some outs) (some ins)).bodyBytes =
      (BaseTx.mkTx nid bcid (some outs') (some ins')).bodyBytes := by
  refine ⟨sorted_map_cbOut _, sorted_map_cbIn _, ?_⟩
  have hlo : (sortOuts (sortOuts outs)).length = (sortOuts (sortOuts outs')).length := by
    rw [(perm_sortOuts (sortOuts outs)).length_eq,
      (perm_sortOuts (sortOuts outs')).length_eq,
      (perm_sortOuts outs).length_eq, (perm_sortOuts outs').length_eq,
      ho.length_eq]
  have hli : (sortIns (sortIns ins)).length = (sortIns (sortIns ins')).length := by
    rw [(perm_sortIns (sortIns ins)).length_eq,
      (perm_sortIns (sortIns ins')).length_eq,
      (perm_sortIns ins).length_eq, (perm_sortIns ins').length_eq,
      hi.length_eq]
  have hpo : (sortOuts outs).Perm (sortOuts outs') :=
    (perm_sortOuts outs).trans (ho.trans (perm_sortOuts outs').symm)
  have hpi : (sortIns ins).Perm (sortIns ins') :=
    (perm_sortIns ins).trans (hi.trans (perm_sortIns ins').symm)
  simp only [BaseTx.bodyBytes, BaseTx.encodedOuts, BaseTx.encodedIns, BaseTx.mkTx]
  rw [hlo, hli, sortOuts_map_toBuffer_eq hpo, sortIns_map_toBuffer_eq hpi]

/-- C2 witness: scenario S2 — the same single input and the two outputs
`exOutA`, `exOutB` (with `cbOut exOutA < cbOut exOutB`) supplied in both
orders give sorted sections and byte-identical encodings. -/
theorem C2_witness :
    List.Sorted leB
      ((BaseTx.mkTx 3 (List.replicate 32 16) (some [exOutA, exOutB])
        (some [exIn0])).encodedOuts.map cbOut) ∧
    List.Sorted leB
      ((BaseTx.mkTx 3 (List.replicate 32 16) (some [exOutA, exOutB])
        (some [exIn0])).encodedIns.map cbIn) ∧
    (BaseTx.mkTx 3 (List.replicate 32 16) (some [exOutA, exOutB])
        (some [exIn0])).bodyBytes =
      (BaseTx.mkTx 3 (List.replicate 32 16) (some [exOutB, exOutA])
        (some [exIn0])).bodyBytes :=
  C2_canonical_sort 3 (List.replicate 32 16) [exOutA, exOutB] [exOutB, exOutA]
    [exIn0] [exIn0] (List.Perm.swap exOutB exOutA []) (List.Perm.refl [exIn0])

end Ava

namespace Ava

theorem map_credID_replicate {A : Type} (f : A → Credential) (c : Nat)
    (hf : ∀ x, (f x).credID = c) (l : List A) :
    (l.map f).map Credential.credID = List.replicate l.length c := by
  induction l with
  | nil => rfl
  | cons x xs ih => simp [hf, ih, List.replicate_succ]

/-- C3: signing an `OperationTx` through `UnsignedTx.sign` produces one
credential per signable element — the inputs in canonical sorted order
first (the preceding `toBuffer()` sorts them in place), then the
operations in authored order — each credential holding one signature per
`SigIdx` of its element, all 65 bytes when the signer emits 65-byte
signatures, with the input credentials tagged `SECPCREDENTIAL` and the
operation credentials `NFTCREDENTIAL`. -/
theorem C3_sign_structure (s : OperationTx) (hash : Bytes → Bytes)
    (kc : KeyChain) (h65 : ∀ a m, (kc a m).length = 65) :
    (UnsignedTx.signOperationTx s hash kc).length =
      s.toBaseTx.ins.length + s.ops.length ∧
    (UnsignedTx.signOperationTx s hash kc).map (fun c => c.sigs.length) =
      (sortIns s.toBaseTx.ins).map (fun i => i.sigIdxs.length) ++
        s.ops.map (fun o => o.operation.sigIdxs.length) ∧
    (UnsignedTx.signOperationTx s hash kc).map Credential.credID =
      List.replicate s.toBaseTx.ins.length SECPCREDENTIAL ++
        List.replicate s.ops.length NFTCREDENTIAL ∧
    ∀ c ∈ UnsignedTx.signOperationTx s hash kc, ∀ sg ∈ c.sigs, sg.length = 65 := by
  have hlen : (sortIns s.toBaseTx.ins).length = s.toBaseTx.ins.length :=
    (perm_sortIns s.toBaseTx.ins).length_eq
  refine ⟨?_, ?_, ?_, ?_⟩
  · simp [UnsignedTx.signOperationTx, OperationTx.sign, BaseTx.sign,
      BaseTx.sortState, hlen]
  · simp only [UnsignedTx.signOperationTx, OperationTx.sign, BaseTx.sign,
      BaseTx.sortState, List.map_append, List.map_map]
    congr 1 <;>
      exact List.map_congr_left fun x _ => by
        simp [Function.comp, List.length_map]
  · simp only [UnsignedTx.signOperationTx, OperationTx.sign, BaseTx.sign,
      BaseTx.sortState, List.map_append]
    rw [map_credID_replicate _ SECPCREDENTIAL (fun x => rfl),
      map_credID_replicate _ NFTCREDENTIAL (fun x => rfl), hlen]
  · intro c hc sg hsg
    simp only [UnsignedTx.signOperationTx, OperationTx.sign, BaseTx.sign,
      BaseTx.sortState, List.mem_append, List.mem_map] at hc
    rcases hc with ⟨x, _, hx⟩ | ⟨x, _, hx⟩ <;> rw [← hx] at hsg <;>
      simp only [List.mem_map] at hsg <;> obtain ⟨y, _, hy⟩ := hsg <;>
      rw [← hy] <;> exact h65 _ _

/-- C3 witness: scenario S5 — two inputs with two signer indices each and
one NFT operation with one signer index give exactly three credentials
with signature counts `[2, 2, 1]` in that order. -/
theorem C3_witness :
    (UnsignedTx.signOperationTx exOpTx exHash exKc).map
      (fun c => c.sigs.length) = [2, 2, 1] := by
  have h := C3_sign_structure exOpTx exHash exKc
    (fun a m => by simp [exKc])
  rw [h.2.1]
  decide

/-- C4 counterexample: constructing a `CreateAssetTx` with denomination
33 does not fail — the constructor returns a `CreateAssetTx` value (its
payload fields silently left at the defaults), so no `InvalidDenomination`
error exists on this path. -/
theorem C4_counterexample :
    CreateAssetTx.mkTx 3 (List.replicate 32 16) (some []) (some [])
        (some [84]) (some [85]) (some 33) (some [1]) =
      ⟨BaseTx.mkTx 3 (List.replicate 32 16) (some []) (some []),
        [], [], 0, []⟩ := by
  decide

/-- C4 (amended): constructing a `CreateAssetTx` with a denomination
outside `0..=32` raises no error and produces a transaction whose name,
symbol, denomination byte and initial state keep their defaults (empty,
empty, 0, empty); only the base header is populated. -/
theorem C4_denomination_silent (nid : Nat) (bcid : Bytes)
    (outs : Option (List TransferableOutput))
    (ins : Option (List TransferableInput)) (n sy : List Nat) (d : Int)
    (ist : Bytes) (hd : d < 0 ∨ 32 < d) :
    CreateAssetTx.mkTx nid bcid outs ins (some n) (some sy) (some d)
        (some ist) =
      ⟨BaseTx.mkTx nid bcid outs ins, [], [], 0, []⟩ := by
  simp only [CreateAssetTx.mkTx]
  rw [if_neg]
  rcases hd with h | h <;> omega

/-- C4 witness: the amended theorem at denomination 40. -/
theorem C4_witness :
    CreateAssetTx.mkTx 7 (List.replicate 32 1) (some []) (some [])
        (some [65]) (some [66]) (some 40) (some [2]) =
      ⟨BaseTx.mkTx 7 (List.replicate 32 1) (some []) (some []),
        [], [], 0, []⟩ :=
  C4_denomination_silent 7 (List.replicate 32 1) (some []) (some [])
    [65] [66] 40 [2] (Or.inr (by decide))

set_option maxRecDepth 40000 in
/-- C5: `UnsignedTx.fromBuffer` dispatches the leading u32 tag through
`SelectTxClass`, which builds only `BaseTx` (0), `CreateAssetTx` (1) and
`OperationTx` (2); tags `IMPORTTX` (3) and `EXPORTTX` (4) throw
`unknown txtype` even on a valid body, as does any unused tag — the
claimed dispatch to `ImportTx` and `ExportTx` does not exist. -/
theorem C5_dispatch :
    UnsignedTx.fromBuffer (u32be BASETX ++ exBase.bodyBytes) =
      .ok (.base exBase, []) ∧
    UnsignedTx.fromBuffer (u32be CREATEASSETTX ++ exCA.bodyBytes) =
      .ok (.createAsset exCA, []) ∧
    UnsignedTx.fromBuffer (u32be OPERATIONTX ++ exOpTxWF.bodyBytes) =
      .ok (.operation exOpTxWF, []) ∧
    UnsignedTx.fromBuffer (u32be IMPORTTX ++ exImpTx.bodyBytes) =
      .error (.unknownTxType IMPORTTX) ∧
    UnsignedTx.fromBuffer (u32be EXPORTTX ++ exExpTx.bodyBytes) =
      .error (.unknownTxType EXPORTTX) ∧
    UnsignedTx.fromBuffer (u32be 7 ++ exBase.bodyBytes) =
      .error (.unknownTxType 7) := by
  decide

/-- C6 counterexample: the encoded `AddDefaultSubnetDelegatorTx` is 100
bytes, not the claimed 76: `nodeid` and `destination` are 32-byte
buffers in the source, not 20-byte ones. -/
theorem C6_counterexample :
    exPlatZero.toBuffer.length = 100 ∧ exPlatZero.toBuffer.length ≠ 76 := by
  decide

/-- C6 (amended): the serialized `AddDefaultSubnetDelegatorTx` is the
fixed layout 32-byte node id, u64 weight, u64 start time, u64 end time,
u32 network id, u64 nonce, 32-byte destination — 100 bytes, with no
input or output vectors — and it round-trips through `fromBuffer`. -/
theorem C6_layout (nodeid dest : Bytes) (w st et nw no : Nat)
    (hn : nodeid.length = 32) (hdst : dest.length = 32) :
    (AddDefaultSubnetDelegatorTx.mkTx nodeid w st et nw no dest).toBuffer =
      nodeid ++ (u32be w ++ [0, 0, 0, 0]) ++ (u32be st ++ [0, 0, 0, 0]) ++
        (u32be et ++ [0, 0, 0, 0]) ++ u32be nw ++
        (u32be no ++ [0, 0, 0, 0]) ++ dest ∧
    (AddDefaultSubnetDelegatorTx.mkTx nodeid w st et nw no dest).toBuffer.length
      = 100 ∧
    AddDefaultSubnetDelegatorTx.fromBuffer
        (AddDefaultSubnetDelegatorTx.mkTx nodeid w st et nw no dest).toBuffer =
      .ok (AddDefaultSubnetDelegatorTx.mkTx nodeid w st et nw no dest, []) := by
  refine ⟨rfl, ?_, ?_⟩
  · simp only [AddDefaultSubnetDelegatorTx.toBuffer,
      AddDefaultSubnetDelegatorTx.mkTx, List.length_append, hn, hdst]
    rfl
  · simp only [AddDefaultSubnetDelegatorTx.toBuffer,
      AddDefaultSubnetDelegatorTx.mkTx, AddDefaultSubnetDelegatorTx.fromBuffer,
      List.append_assoc, readBytes_pre hn, readBytes_u64pad,
      readBytes_u32, readBytes_all hdst]

/-- C6 witness: the amended layout theorem at a concrete transaction. -/
theorem C6_witness :
    (AddDefaultSubnetDelegatorTx.mkTx (List.replicate 32 5) 1 2 3 4 5
      (List.replicate 32 6)).toBuffer.length = 100 :=
  (C6_layout (List.replicate 32 5) (List.replicate 32 6) 1 2 3 4 5
    (by decide) (by decide)).2.1

/-- C7 counterexample: constructing with weight 1 yields a u64 weight
field of 2^32, not 1 — the u32 value is written into the high 32 bits of
the 8-byte buffer, so the claimed form (high bits zero, low bits the
value) is false. -/
theorem C7_counterexample :
    beVal exPlatW1.weight = 4294967296 ∧ beVal exPlatW1.weight ≠ 1 := by
  decide

/-- C7 (amended): for u32-representable weight, start time, end time and
nonce, the encoded u64 fields carry the value in their HIGH 32 bits with
the low 32 bits zero — the big-endian u64 value is `v * 2^32` — while
the matching getters read the value back from the first four bytes. -/
theorem C7_high_bits (nodeid dest : Bytes) (w st et nw no : Nat)
    (hw : w < 2 ^ 32) (hst : st < 2 ^ 32) (het : et < 2 ^ 32)
    (hno : no < 2 ^ 32) :
    beVal (AddDefaultSubnetDelegatorTx.mkTx nodeid w st et nw no dest).weight
      = w * 2 ^ 32 ∧
    beVal (AddDefaultSubnetDelegatorTx.mkTx nodeid w st et nw no dest).startTime
      = st * 2 ^ 32 ∧
    beVal (AddDefaultSubnetDelegatorTx.mkTx nodeid w st et nw no dest).endTime
      = et * 2 ^ 32 ∧
    beVal (AddDefaultSubnetDelegatorTx.mkTx nodeid w st et nw no dest).nonce
      = no * 2 ^ 32 ∧
    beVal ((AddDefaultSubnetDelegatorTx.mkTx nodeid w st et nw no dest).weight.drop 4)
      = 0 ∧
    (AddDefaultSubnetDelegatorTx.mkTx nodeid w st et nw no dest).getWeight = w := by
  exact ⟨beVal_u64pad hw, beVal_u64pad hst, beVal_u64pad het,
    beVal_u64pad hno, rfl, beVal_u32be hw⟩

/-- C7 witness: the amended theorem at weight 1. -/
theorem C7_witness :
    beVal (AddDefaultSubnetDelegatorTx.mkTx (List.replicate 32 0) 1 2 3 4 5
      (List.replicate 32 0)).weight = 1 * 2 ^ 32 :=
  (C7_high_bits (List.replicate 32 0) (List.replicate 32 0) 1 2 3 4 5
    (by decide) (by decide) (by decide) (by decide)).1

set_option maxRecDepth 40000 in
/-- C9 counterexample: decoding a stream whose outputs arrive in
non-canonical order preserves the stream order, and a subsequent
`toBuffer()` call sorts the instance's array in place, so `getOuts()`
returns a different order after the call — the claimed immutability is
false. -/
theorem C9_counterexample :
    BaseTx.fromBuffer exUnsortedStream =
      .ok (⟨3, List.replicate 32 16, [exOutB, exOutA], []⟩, []) ∧
    (BaseTx.toBuffer ⟨3, List.replicate 32 16, [exOutB, exOutA], []⟩).1.outs =
      [exOutA, exOutB] ∧
    ([exOutA, exOutB] : List TransferableOutput) ≠ [exOutB, exOutA] := by
  decide

/-- C9 (amended): `toBuffer` sorts `outs` and `ins` in place: afterwards
the instance holds canonically sorted permutations of its previous
arrays, all other fields unchanged; the state is unchanged exactly when
the arrays were already in canonical order, and a second `toBuffer` no
longer changes anything. -/
theorem C9_toBuffer_sorts (s : BaseTx) :
    (BaseTx.toBuffer s).1.outs.Perm s.outs ∧
    (BaseTx.toBuffer s).1.ins.Perm s.ins ∧
    List.Sorted leOut (BaseTx.toBuffer s).1.outs ∧
    List.Sorted leIn (BaseTx.toBuffer s).1.ins ∧
    (BaseTx.toBuffer s).1.networkid = s.networkid ∧
    (BaseTx.toBuffer s).1.blockchainid = s.blockchainid ∧
    (BaseTx.toBuffer (BaseTx.toBuffer s).1).1 = (BaseTx.toBuffer s).1 ∧
    (List.Sorted leOut s.outs → List.Sorted leIn s.ins →
      (BaseTx.toBuffer s).1 = s) := by
  cases s with
  | mk nid bcid os is =>
    refine ⟨perm_sortOuts os, perm_sortIns is, sorted_sortOuts os,
      sorted_sortIns is, rfl, rfl, ?_, ?_⟩
    · simp [BaseTx.toBuffer, BaseTx.sortState,
        sortOuts_eq_of_sorted (sorted_sortOuts os),
        sortIns_eq_of_sorted (sorted_sortIns is)]
    · intro ho hi
      simp [BaseTx.toBuffer, BaseTx.sortState, sortOuts_eq_of_sorted ho,
        sortIns_eq_of_sorted hi]

/-- C9 witness: the amended theorem at a transaction already in
canonical order — the state really is unchanged there. -/
theorem C9_witness : (BaseTx.toBuffer exBase).1 = exBase :=
  (C9_toBuffer_sorts exBase).2.2.2.2.2.2.2 (by decide) (by decide)

set_option maxRecDepth 40000 in
/-- C10: a second `fromBuffer` on the same `OperationTx` instance does
not reset `ops` — the base header's `outs` and `ins` are reset, but the
operations of the second parse are appended to those of the first, so
after re-parsing the same one-operation body the instance holds two
operations. -/
theorem C10_append_bug :
    OperationTx.fromBuffer OperationTx.fresh exOpTxWF.bodyBytes =
      .ok (exOpTxWF, []) ∧
    OperationTx.fromBuffer exOpTxWF exOpTxWF.bodyBytes =
      .ok (⟨exBase, [exOp0, exOp0]⟩, []) := by
  decide

end Ava
